import Mathlib

/-!
Verification of `tools/dev/check_nanoapp_symbols.py` (symbol allowlist checker).

The Python script is shallowly embedded: each helper function of the script
becomes a Lean definition over the data the Python function computes on, with
filesystem reads, subprocess output and environment variables passed in
explicitly.  Python exceptions are modelled with `Except`.

Python string primitives (`in`, slicing, `startswith`, `split()`) are embedded
at the character level (on `String.data`), which is the abstract character
sequence Python operates on.
-/

namespace CheckNanoappSymbols

/-- Python `c in a` for a character `c` and string `a`. -/
def pyContainsChar (a : String) (c : Char) : Bool :=
  a.data.contains c

/-- Python `s.startswith(p)`. -/
def pyStartswith (s p : String) : Bool :=
  p.data.isPrefixOf s.data

/-- Python `line.split()` with no argument: split on runs of whitespace,
dropping empty pieces. -/
def pySplit (line : String) : List String :=
  ((line.data.splitOnP (fun c => c.isWhitespace)).map
    (fun l => String.mk l)).filter (fun w => w ≠ "")

/-- `allowed[:allowed.find('*')]` as the script uses it (only under
`'*' in allowed`): the substring of `a` before the first occurrence of
`'*'`. -/
def wildcardPrefix (a : String) : String :=
  String.mk (a.data.takeWhile (fun c => c ≠ '*'))

/-- `NUM_ROWS_TO_DISCARD = 4`: the number of rows to discard from the output
of the elf reader. -/
def NUM_ROWS_TO_DISCARD : Nat := 4

/-- One iteration of the wildcard loop of `_disallowed_symbols`:

```python
if '*' in allowed:
  prefix = allowed[:allowed.find('*')]
  diff_list = [sym for sym in diff_list if not sym.startswith(prefix)]
```
-/
def wildcardStep (diff : Finset String) (allowed : String) : Finset String :=
  if pyContainsChar allowed '*' then
    diff.filter (fun sym => ¬ pyStartswith sym (wildcardPrefix allowed))
  else diff

/--
`_disallowed_symbols(observed_symbols, allowed_symbols)`:

```python
diff_list = list(set(observed_symbols) - set(allowed_symbols))
for allowed in allowed_symbols:
  if '*' in allowed:
    prefix = allowed[:allowed.find('*')]
    diff_list = [sym for sym in diff_list if not sym.startswith(prefix)]
return diff_list
```

Python's `list(set(..) - set(..))` has set semantics (deduplicated, order
unspecified), so the embedding works with `Finset String` throughout; the
per-entry wildcard pass is an order-preserving filter and is embedded as a
`Finset.filter` (see `wildcardStep`).
-/
def disallowed_symbols (observed_symbols allowed_symbols : List String) :
    Finset String :=
  let diff_list := observed_symbols.toFinset \ allowed_symbols.toFinset
  allowed_symbols.foldl wildcardStep diff_list

/-- Each wildcard-loop iteration only removes symbols. -/
lemma mem_of_mem_wildcardStep {s : String} {d : Finset String} {a : String}
    (h : s ∈ wildcardStep d a) : s ∈ d := by
  unfold wildcardStep at h
  split at h
  · exact (Finset.mem_filter.mp h).1
  · exact h

/-- The whole wildcard loop only removes symbols. -/
lemma mem_of_mem_foldl_wildcardStep {s : String} :
    ∀ (l : List String) (d : Finset String),
      s ∈ l.foldl wildcardStep d → s ∈ d := by
  intro l
  induction l with
  | nil => intro d h; simpa using h
  | cons a l ih =>
      intro d h
      exact mem_of_mem_wildcardStep (ih (wildcardStep d a) h)

/-- A wildcard-loop iteration on an entry without `'*'` does nothing. -/
lemma wildcardStep_of_not_contains {d : Finset String} {a : String}
    (h : pyContainsChar a '*' = false) : wildcardStep d a = d := by
  unfold wildcardStep
  simp [h]

/-- The wildcard loop over entries without `'*'` does nothing. -/
lemma foldl_wildcardStep_of_no_wildcard :
    ∀ (l : List String) (d : Finset String),
      (∀ a ∈ l, pyContainsChar a '*' = false) → l.foldl wildcardStep d = d := by
  intro l
  induction l with
  | nil => intro d _; rfl
  | cons a l ih =>
      intro d h
      have ha : pyContainsChar a '*' = false := h a (List.mem_cons_self a l)
      have hl : ∀ b ∈ l, pyContainsChar b '*' = false :=
        fun b hb => h b (List.mem_cons_of_mem a hb)
      simp only [List.foldl_cons, wildcardStep_of_not_contains ha]
      exact ih d hl

/-- Once some entry of the loop list carries a wildcard whose literal prefix
matches `s`, the loop result does not contain `s`. -/
lemma not_mem_foldl_wildcardStep_of_match {s a : String}
    (hw : pyContainsChar a '*' = true)
    (hp : pyStartswith s (wildcardPrefix a) = true) :
    ∀ (l : List String) (d : Finset String), a ∈ l →
      s ∉ l.foldl wildcardStep d := by
  intro l
  induction l with
  | nil => intro d ha; simp at ha
  | cons x xs ih =>
      intro d ha hmem
      simp only [List.foldl_cons] at hmem
      rcases List.mem_cons.mp ha with rfl | ha
      · have hstep : s ∉ wildcardStep d a := by
          unfold wildcardStep
          rw [hw]
          simp only [if_true, Finset.mem_filter, not_and]
          intro _
          simp [hp]
        exact hstep (mem_of_mem_foldl_wildcardStep xs (wildcardStep d a) hmem)
      · exact ih (wildcardStep d x) ha hmem

/-- Outcome of `subprocess.check_output` on the elf reader: either the tool ran
and exited with status 0 (`ok`, carrying `out.splitlines()`), or it was not
invocable / exited non-zero, in which case `check_output` raises
(`FileNotFoundError` / `CalledProcessError`). -/
inductive ToolResult where
  | ok (out_lines : List String)
  | failure
deriving DecidableEq

/-- The Python exceptions the script can raise (all uncaught: the interpreter
prints a traceback and exits with status 1). -/
inductive PyError where
  /-- `subprocess.check_output` failure: elf reader missing or non-zero exit. -/
  | calledProcessError
  /-- `idx_type, symbol_name = words[-2:]` with fewer than two values. -/
  | valueError
  /-- `PLATFORM_INFO[os.environ['CHRE_PLATFORM']]` with an unknown key. -/
  | keyError
deriving DecidableEq

/-- The body of the symbol loop in `_get_symbols_from_nanoapp`:

```python
words = line.split()
idx_type, symbol_name = words[-2:]
if "UND" == idx_type:
  symbols.append(symbol_name)
```

`words[-2:]` are the last two elements; unpacking them into two variables
raises `ValueError` when `words` has fewer than two elements. -/
def symbolLineStep (symbols : List String) (line : String) :
    Except PyError (List String) :=
  match (pySplit line).reverse with
  | symbol_name :: idx_type :: _ =>
      .ok (if idx_type = "UND" then symbols ++ [symbol_name] else symbols)
  | _ => .error .valueError

/-- `_get_symbols_from_nanoapp`, factored over the elf-reader invocation
(`subprocess.check_output` raises on tool failure; nothing catches it).  On
success the loop runs over `out.splitlines()[NUM_ROWS_TO_DISCARD:]`. -/
def get_symbols_from_nanoapp (tool : ToolResult) :
    Except PyError (List String) :=
  match tool with
  | .failure => .error .calledProcessError
  | .ok out_lines =>
      (out_lines.drop NUM_ROWS_TO_DISCARD).foldlM symbolLineStep []

/-- One entry of the `PLATFORM_INFO` table (class `PlatformInfo`, with the
constructor defaults). -/
structure PlatformInfo where
  external_symbol_list : String := ""
  header_files : List String := []
  exported_list_files : List String := []
deriving DecidableEq

/-- The `PLATFORM_INFO` dict, parameterised by the environment variables it
interpolates (`ANDROID_BUILD_TOP`, `SSC_PREFIX`, `QSH_PREFIX`). -/
def PLATFORM_INFO (android_build_top ssc_root qsh_root : String) :
    List (String × PlatformInfo) :=
  [("tinysys",
    { exported_list_files :=
        [android_build_top ++ "/system/chre/platform/shared/nanoapp_loader.cc",
         android_build_top ++
           "/system/chre/platform/tinysys/include/chre/extensions/platform/symbol_list.h"] }),
   ("qsh",
    { external_symbol_list := ssc_root ++ "/platform/exports/dl_base_symbols.lst",
      header_files := [qsh_root ++ "/qsh/shim/platform/ssc/include/init.h"] })]

/-- The filesystem/parse results one run of the script sees, passed in
explicitly (the Python functions obtain them through `pyclibrary`, `re.search`
and `open`):
* `headerFunctionNames`: `pyc_parser.defs['functions'].keys()` over all parsed
  header files, concatenated in parse order;
* `exportedMacroNames`: the names captured by the
  `ADD_EXPORTED_SYMBOL`/`ADD_EXPORTED_C_SYMBOL` regex over the platform's
  `exported_list_files`, concatenated in scan order;
* `platformListSymbols`: the stripped lines of the platform's
  `external_symbol_list` file, or `none` when that path is falsy or the file
  does not exist. -/
structure FileEnv where
  headerFunctionNames : List String
  exportedMacroNames : List String
  platformListSymbols : Option (List String)

/-- `_get_known_exported_functions()`, factored over the platform-table lookup
(`PLATFORM_INFO[os.environ['CHRE_PLATFORM']]` raises `KeyError` on an unknown
platform id) and the regex-scan results. -/
def get_known_exported_functions (table : List (String × PlatformInfo))
    (platform : String) (env : FileEnv) : Except PyError (List String) :=
  match table.lookup platform with
  | none => .error .keyError
  | some _ => .ok env.exportedMacroNames

/-- `_get_allowed_symbols()`: `fnames` starts as the header-derived names, is
extended with `_get_known_exported_functions()`, then (when the platform's
symbol-list file is configured and exists) with that file's stripped lines.
The platform-table access (which in the source happens first, while building
`header_files`) raises `KeyError` on an unknown platform id. -/
def get_allowed_symbols (table : List (String × PlatformInfo))
    (platform : String) (env : FileEnv) : Except PyError (List String) :=
  match table.lookup platform with
  | none => .error .keyError
  | some _ => do
      let fnames := env.headerFunctionNames
      let exported ← get_known_exported_functions table platform env
      let fnames := fnames ++ exported
      match env.platformListSymbols with
      | some platform_external_symbols =>
          .ok (fnames ++ platform_external_symbols)
      | none => .ok fnames

/-- `allowed_symbols += _get_allowed_symbols_from_file(...)` in `__main__`,
applied only when `--allowed_symbols_file` was given. -/
def withExtraAllowed (allowed_symbols : List String) :
    Option (List String) → List String
  | some extra => allowed_symbols ++ extra
  | none => allowed_symbols

/-- A normal termination of the `__main__` block: the process exit status and
the set of disallowed symbols printed in the failure banner (empty on the
success banner). -/
structure RunOutcome where
  exit_status : Nat
  printed_disallowed : Finset String
deriving DecidableEq

/-- The `__main__` block, factored over the elf-reader outcome, the platform
table, the file environment and the optional `--allowed_symbols_file` contents
(`extra_allowed`).  An uncaught exception is an `Except.error`; otherwise the
script prints the failure banner listing each disallowed symbol and calls
`sys.exit(1)` when the disallowed list is non-empty, and prints the success
banner and falls off the end (status 0) when it is empty. -/
def main_block (tool : ToolResult) (table : List (String × PlatformInfo))
    (platform : String) (env : FileEnv)
    (extra_allowed : Option (List String)) : Except PyError RunOutcome := do
  let observed_symbols ← get_symbols_from_nanoapp tool
  let allowed_symbols ← get_allowed_symbols table platform env
  let allowed_symbols := withExtraAllowed allowed_symbols extra_allowed
  let disallowed_symbols_list := disallowed_symbols observed_symbols allowed_symbols
  if 0 < disallowed_symbols_list.card then
    .ok ⟨1, disallowed_symbols_list⟩
  else
    .ok ⟨0, ∅⟩

/-- Exit status of the whole process: an uncaught Python exception terminates
the interpreter with status 1. -/
def process_exit_status : Except PyError RunOutcome → Nat
  | .error _ => 1
  | .ok r => r.exit_status

instance : DecidableEq (Except PyError (List String)) := fun x y =>
  match x, y with
  | .ok a, .ok b => decidable_of_iff (a = b) (by simp)
  | .error a, .error b => decidable_of_iff (a = b) (by simp)
  | .ok _, .error _ => isFalse (by simp)
  | .error _, .ok _ => isFalse (by simp)

/-- Specification-side reading of one data row: split on whitespace; the row
contributes its last token exactly when its second-to-last token equals
`"UND"`. -/
def specRowSymbol (line : String) : Option String :=
  if 2 ≤ (pySplit line).length ∧
      (pySplit line).getD ((pySplit line).length - 2) "" = "UND" then
    some ((pySplit line).getD ((pySplit line).length - 1) "")
  else none

/-- The first two elements of a reversed list are the list's last and
second-to-last elements. -/
lemma reverse_cons_cons_getD {w : List String} {b a : String} {t : List String}
    (h : w.reverse = b :: a :: t) :
    2 ≤ w.length ∧ w.getD (w.length - 1) "" = b ∧ w.getD (w.length - 2) "" = a := by
  have hw : w = t.reverse ++ [a, b] := by
    have h2 := congrArg List.reverse h
    simpa using h2
  subst hw
  have hlen : (t.reverse ++ [a, b]).length = t.length + 2 := by simp
  refine ⟨by omega, ?_, ?_⟩
  · rw [hlen, show t.length + 2 - 1 = t.length + 1 from rfl,
      List.getD_append_right _ _ _ _ (by simp)]
    simp [List.getD]
  · rw [hlen, show t.length + 2 - 2 = t.length from rfl,
      List.getD_append_right _ _ _ _ (by simp)]
    simp [List.getD]

/-- On a row with at least two tokens the loop body succeeds and appends
exactly what `specRowSymbol` reads off the row. -/
lemma symbolLineStep_eq_ok (symbols : List String) (line : String)
    (h : 2 ≤ (pySplit line).length) :
    symbolLineStep symbols line = .ok (symbols ++ (specRowSymbol line).toList) := by
  unfold symbolLineStep specRowSymbol
  cases hrev : (pySplit line).reverse with
  | nil =>
      exfalso
      have hl := congrArg List.length hrev
      simp only [List.length_reverse, List.length_nil] at hl
      omega
  | cons b t' =>
      cases t' with
      | nil =>
          exfalso
          have hl := congrArg List.length hrev
          simp only [List.length_reverse, List.length_cons, List.length_nil] at hl
          omega
      | cons a t =>
          obtain ⟨h2, hb, ha⟩ := reverse_cons_cons_getD hrev
          rw [hb, ha]
          by_cases hU : a = "UND" <;> simp [hU, h2]

/-- On a row with fewer than two tokens the loop body raises `ValueError`. -/
lemma symbolLineStep_eq_error (symbols : List String) (line : String)
    (h : (pySplit line).length < 2) :
    symbolLineStep symbols line = .error .valueError := by
  unfold symbolLineStep
  cases hrev : (pySplit line).reverse with
  | nil => rfl
  | cons b t' =>
      cases t' with
      | nil => rfl
      | cons a t =>
          exfalso
          have hl := congrArg List.length hrev
          simp only [List.length_reverse, List.length_cons] at hl
          omega

/-- The symbol loop over well-formed rows collects exactly the
`specRowSymbol` reads, in order. -/
lemma foldlM_symbolLineStep_ok (l : List String) :
    ∀ symbols, (∀ line ∈ l, 2 ≤ (pySplit line).length) →
      l.foldlM symbolLineStep symbols = .ok (symbols ++ l.filterMap specRowSymbol) := by
  induction l with
  | nil =>
      intro symbols _
      simp only [List.foldlM_nil, List.filterMap_nil, List.append_nil]
      rfl
  | cons x xs ih =>
      intro symbols h
      have hx := h x (List.mem_cons_self x xs)
      rw [List.foldlM_cons, symbolLineStep_eq_ok symbols x hx]
      have hbind :
          (Except.ok (symbols ++ (specRowSymbol x).toList) >>= fun s =>
            xs.foldlM symbolLineStep s) =
          xs.foldlM symbolLineStep (symbols ++ (specRowSymbol x).toList) := rfl
      rw [hbind, ih _ (fun line hl => h line (List.mem_cons_of_mem x hl))]
      cases hfx : specRowSymbol x <;>
        simp [List.filterMap_cons, hfx, List.append_assoc]

/-- The symbol loop raises `ValueError` whenever some row has fewer than two
tokens. -/
lemma foldlM_symbolLineStep_error (l : List String) :
    ∀ symbols, (∃ line ∈ l, (pySplit line).length < 2) →
      l.foldlM symbolLineStep symbols = .error .valueError := by
  induction l with
  | nil => intro s h; simp at h
  | cons x xs ih =>
      intro s h
      by_cases hx : (pySplit x).length < 2
      · rw [List.foldlM_cons, symbolLineStep_eq_error s x hx]
        rfl
      · rw [List.foldlM_cons, symbolLineStep_eq_ok s x (by omega)]
        have hbind :
            (Except.ok (s ++ (specRowSymbol x).toList) >>= fun acc =>
              xs.foldlM symbolLineStep acc) =
            xs.foldlM symbolLineStep (s ++ (specRowSymbol x).toList) := rfl
        rw [hbind]
        obtain ⟨line, hline, hlen⟩ := h
        rcases List.mem_cons.mp hline with rfl | hmem
        · omega
        · exact ih _ ⟨line, hmem, hlen⟩

/-- When the platform id resolves, `_get_allowed_symbols` returns the header
names, then the macro-exported names, then the platform list-file symbols. -/
lemma get_allowed_symbols_eq_of_lookup
    (table : List (String × PlatformInfo)) (platform : String) (env : FileEnv)
    (info : PlatformInfo) (hlook : table.lookup platform = some info) :
    get_allowed_symbols table platform env =
      .ok (env.headerFunctionNames ++ env.exportedMacroNames ++
        env.platformListSymbols.getD []) := by
  unfold get_allowed_symbols get_known_exported_functions
  rw [hlook]
  cases hpl : env.platformListSymbols with
  | none =>
      show Except.ok (env.headerFunctionNames ++ env.exportedMacroNames) = _
      rw [Option.getD_none, List.append_nil]
  | some l => rfl

/-- C1: for every observed-symbol collection `O` and allowed-symbol collection
`A` in which no entry contains the wildcard marker `'*'`, the matcher
`_disallowed_symbols(O, A)` returns exactly the set difference `O - A`
(compared as sets, on exact string equality). -/
theorem C1_no_wildcard_plain_set_difference
    (O A : List String)
    (_hO : ∀ s ∈ O, pyContainsChar s '*' = false)
    (hA : ∀ a ∈ A, pyContainsChar a '*' = false) :
    disallowed_symbols O A = O.toFinset \ A.toFinset := by
  unfold disallowed_symbols
  exact foldl_wildcardStep_of_no_wildcard A _ hA

theorem C1_no_wildcard_plain_set_difference_witness :
    (∀ s ∈ (["x", "y"] : List String), pyContainsChar s '*' = false) ∧
    (∀ a ∈ (["y", "z"] : List String), pyContainsChar a '*' = false) ∧
    disallowed_symbols ["x", "y"] ["y", "z"] =
      (["x", "y"] : List String).toFinset \ (["y", "z"] : List String).toFinset :=
  ⟨by decide, by decide,
    C1_no_wildcard_plain_set_difference ["x", "y"] ["y", "z"] (by decide) (by decide)⟩

/-- C2: for every allowed entry containing the wildcard marker, the matcher
removes from the result every observed symbol that starts with that entry's
literal prefix (the substring before the marker); in particular, with
`A = {"foo*"}` and `O = {"foobar", "foo", "barfoo"}`,
`_disallowed_symbols(O, A) = {"barfoo"}`. -/
theorem C2_wildcard_removes_prefixed_symbols
    (O A : List String) (a s : String)
    (ha : a ∈ A) (hw : pyContainsChar a '*' = true)
    (hp : pyStartswith s (wildcardPrefix a) = true) :
    s ∉ disallowed_symbols O A ∧
      disallowed_symbols ["foobar", "foo", "barfoo"] ["foo*"] = {"barfoo"} :=
  ⟨not_mem_foldl_wildcardStep_of_match hw hp A _ ha, by decide⟩

theorem C2_wildcard_removes_prefixed_symbols_witness :
    ("foo*" ∈ (["foo*"] : List String) ∧ pyContainsChar "foo*" '*' = true ∧
      pyStartswith "foobar" (wildcardPrefix "foo*") = true) ∧
    ("foobar" ∉ disallowed_symbols ["foobar", "foo", "barfoo"] ["foo*"] ∧
      disallowed_symbols ["foobar", "foo", "barfoo"] ["foo*"] = {"barfoo"}) :=
  ⟨by decide,
    C2_wildcard_removes_prefixed_symbols ["foobar", "foo", "barfoo"] ["foo*"] "foo*" "foobar" (by decide) (by decide) (by decide)⟩

/-- C3: if the allowed set contains the entry `"*"` (a wildcard with an empty
literal prefix), then for every observed-symbol collection `O` the matcher
returns the empty set. -/
theorem C3_star_entry_empties_result
    (O A : List String) (h : "*" ∈ A) :
    disallowed_symbols O A = ∅ := by
  rw [Finset.eq_empty_iff_forall_not_mem]
  intro s
  have hw : pyContainsChar "*" '*' = true := by decide
  have hpre : wildcardPrefix "*" = "" := by decide
  have hp : pyStartswith s (wildcardPrefix "*") = true := by
    rw [hpre]
    unfold pyStartswith
    simp [show ("" : String).data = [] from rfl, List.isPrefixOf]
  exact not_mem_foldl_wildcardStep_of_match hw hp A _ h

theorem C3_star_entry_empties_result_witness :
    "*" ∈ (["*"] : List String) ∧ disallowed_symbols ["x", "y"] ["*"] = ∅ :=
  ⟨by decide, C3_star_entry_empties_result ["x", "y"] ["*"] (by decide)⟩

/-- C10: for every allowed entry containing the wildcard marker `'*'` at any
position, not only at the end, the matcher treats it as a prefix rule built
from the substring before the first marker and ignores all characters after
it: e.g., the entry `"a*b"` removes from the result every observed symbol
starting with `"a"`, including symbols that do not end in `"b"`. -/
theorem C10_wildcard_anywhere_is_prefix_rule
    (O A : List String) (e s : String)
    (he : e ∈ A) (hw : pyContainsChar e '*' = true)
    (hp : pyStartswith s (wildcardPrefix e) = true) :
    s ∉ disallowed_symbols O A ∧
      wildcardPrefix "a*b" = "a" ∧
      disallowed_symbols ["ax", "c"] ["a*b"] = {"c"} :=
  ⟨not_mem_foldl_wildcardStep_of_match hw hp A _ he, by decide, by decide⟩

theorem C10_wildcard_anywhere_is_prefix_rule_witness :
    ("a*b" ∈ (["a*b"] : List String) ∧ pyContainsChar "a*b" '*' = true ∧
      pyStartswith "ax" (wildcardPrefix "a*b") = true) ∧
    ("ax" ∉ disallowed_symbols ["ax", "c"] ["a*b"] ∧
      wildcardPrefix "a*b" = "a" ∧
      disallowed_symbols ["ax", "c"] ["a*b"] = {"c"}) :=
  ⟨by decide,
    C10_wildcard_anywhere_is_prefix_rule ["ax", "c"] ["a*b"] "a*b" "ax" (by decide) (by decide) (by decide)⟩

/-- C4 is false of the code: a tool-output line (after the 4 discarded header
lines) with fewer than 2 whitespace-delimited tokens is not skipped — the
tuple unpacking `idx_type, symbol_name = words[-2:]` raises `ValueError`.
Counterexample: four header lines, one well-formed `UND` row, then the
malformed line `"x"`; the claim predicts the result `["chreLog"]`, the code
raises. -/
theorem C4_counterexample_malformed_line_crashes :
    get_symbols_from_nanoapp (.ok ["h1", "h2", "h3", "h4",
        "1: 0 FUNC UND chreLog", "x"]) = .error .valueError ∧
    get_symbols_from_nanoapp (.ok ["h1", "h2", "h3", "h4",
        "1: 0 FUNC UND chreLog", "x"]) ≠ .ok ["chreLog"] :=
  ⟨by rfl, by decide⟩

/-- C4 (amended): a malformed tool-output line after the discarded header
block containing fewer than 2 whitespace-delimited tokens crashes the
extractor: the unpacking of the line's last two tokens raises an uncaught
`ValueError`; the line is not skipped and no symbol list is produced. -/
theorem C4_amended_malformed_line_raises
    (out_lines : List String)
    (h : ∃ line ∈ out_lines.drop NUM_ROWS_TO_DISCARD, (pySplit line).length < 2) :
    get_symbols_from_nanoapp (.ok out_lines) = .error .valueError := by
  unfold get_symbols_from_nanoapp
  exact foldlM_symbolLineStep_error _ _ h

theorem C4_amended_malformed_line_raises_witness :
    (∃ line ∈ (["h1", "h2", "h3", "h4", "x"] : List String).drop NUM_ROWS_TO_DISCARD,
        (pySplit line).length < 2) ∧
    get_symbols_from_nanoapp (.ok ["h1", "h2", "h3", "h4", "x"]) =
      .error .valueError :=
  ⟨by decide, C4_amended_malformed_line_raises ["h1", "h2", "h3", "h4", "x"] (by decide)⟩

/-- C5: the extractor skips exactly the first 4 lines of the symbol-dump
output (`NUM_ROWS_TO_DISCARD = 4`), and among the remaining well-formed lines
(at least 2 tokens) a symbol — the last whitespace-delimited token — is
included if and only if the second-to-last token equals `"UND"`
(`specRowSymbol`); rows with any other section indicator are excluded. -/
theorem C5_skip_four_then_und_rows
    (out_lines : List String)
    (h : ∀ line ∈ out_lines.drop NUM_ROWS_TO_DISCARD, 2 ≤ (pySplit line).length) :
    NUM_ROWS_TO_DISCARD = 4 ∧
    get_symbols_from_nanoapp (.ok out_lines) =
      .ok ((out_lines.drop NUM_ROWS_TO_DISCARD).filterMap specRowSymbol) := by
  refine ⟨rfl, ?_⟩
  unfold get_symbols_from_nanoapp
  simpa using foldlM_symbolLineStep_ok _ _ h

theorem C5_skip_four_then_und_rows_witness :
    (∀ line ∈ (["h1", "h2", "h3", "h4", "1: UND chreLog",
        "2: 12 localFn"] : List String).drop NUM_ROWS_TO_DISCARD,
      2 ≤ (pySplit line).length) ∧
    (NUM_ROWS_TO_DISCARD = 4 ∧
      get_symbols_from_nanoapp (.ok ["h1", "h2", "h3", "h4", "1: UND chreLog",
          "2: 12 localFn"]) =
        .ok ((["h1", "h2", "h3", "h4", "1: UND chreLog",
          "2: 12 localFn"] : List String).drop NUM_ROWS_TO_DISCARD
          |>.filterMap specRowSymbol)) :=
  ⟨by decide, C5_skip_four_then_und_rows _ (by decide)⟩

/-- C6: if the elf reader is not invocable or exits non-zero,
`subprocess.check_output` raises; the error propagates uncaught through
`__main__` (the process exits with status 1), it is never retried or
swallowed, and no disallowed-symbol comparison is performed (the run ends in
`Except.error`, before `_disallowed_symbols` is reached). -/
theorem C6_tool_failure_is_fatal
    (table : List (String × PlatformInfo)) (platform : String) (env : FileEnv)
    (extra_allowed : Option (List String)) :
    get_symbols_from_nanoapp .failure = .error .calledProcessError ∧
    main_block .failure table platform env extra_allowed =
      .error .calledProcessError ∧
    process_exit_status (main_block .failure table platform env extra_allowed) = 1 :=
  ⟨rfl, rfl, rfl⟩

/-- C7: when the observed and allowed symbols are computed without error,
`__main__` exits with status 1 and prints every symbol of the disallowed set
whenever it is non-empty, and exits with status 0 (printing no offending
symbol) whenever it is empty: exit status 0 iff every observed undefined
symbol is covered by the allowlist. -/
theorem C7_exit_zero_iff_disallowed_empty
    (tool : ToolResult) (table : List (String × PlatformInfo)) (platform : String)
    (env : FileEnv) (extra_allowed : Option (List String))
    (observed allowed : List String)
    (hobs : get_symbols_from_nanoapp tool = .ok observed)
    (hall : get_allowed_symbols table platform env = .ok allowed) :
    main_block tool table platform env extra_allowed =
      .ok ⟨if disallowed_symbols observed (withExtraAllowed allowed extra_allowed) = ∅
            then 0 else 1,
          disallowed_symbols observed (withExtraAllowed allowed extra_allowed)⟩ ∧
    (process_exit_status (main_block tool table platform env extra_allowed) = 0 ↔
      disallowed_symbols observed (withExtraAllowed allowed extra_allowed) = ∅) := by
  have hmain : main_block tool table platform env extra_allowed =
      (if 0 < (disallowed_symbols observed (withExtraAllowed allowed extra_allowed)).card
       then .ok ⟨1, disallowed_symbols observed (withExtraAllowed allowed extra_allowed)⟩
       else .ok ⟨0, ∅⟩) := by
    unfold main_block
    rw [hobs, hall]
    rfl
  by_cases hemp :
      disallowed_symbols observed (withExtraAllowed allowed extra_allowed) = ∅
  · rw [hmain]
    simp [hemp, process_exit_status]
  · have hpos :
        0 < (disallowed_symbols observed (withExtraAllowed allowed extra_allowed)).card :=
      Finset.card_pos.mpr (Finset.nonempty_iff_ne_empty.mpr hemp)
    rw [hmain]
    simp [hemp, hpos, process_exit_status]

theorem C7_exit_zero_iff_disallowed_empty_witness :
    (get_symbols_from_nanoapp (.ok ["h1", "h2", "h3", "h4",
        "1: 0 FUNC UND chreLog"]) = .ok ["chreLog"]) ∧
    (get_allowed_symbols (PLATFORM_INFO "" "" "") "tinysys" ⟨[], [], none⟩ =
      .ok []) ∧
    (main_block (.ok ["h1", "h2", "h3", "h4", "1: 0 FUNC UND chreLog"])
        (PLATFORM_INFO "" "" "") "tinysys" ⟨[], [], none⟩ none =
      .ok ⟨if disallowed_symbols ["chreLog"] (withExtraAllowed [] none) = ∅
            then 0 else 1,
          disallowed_symbols ["chreLog"] (withExtraAllowed [] none)⟩ ∧
    (process_exit_status (main_block (.ok ["h1", "h2", "h3", "h4",
        "1: 0 FUNC UND chreLog"]) (PLATFORM_INFO "" "" "") "tinysys"
        ⟨[], [], none⟩ none) = 0 ↔
      disallowed_symbols ["chreLog"] (withExtraAllowed [] none) = ∅)) :=
  ⟨by rfl, by rfl,
    C7_exit_zero_iff_disallowed_empty _ _ _ _ _ _ _ (by rfl) (by rfl)⟩

/-- C8: the final allowed-symbol set is the union of all four sources — any
symbol appearing in a parsed header declaration, in an export-macro match, in
the platform allowed-list file, or in the caller-supplied extra allowed-list
file is in the final allowed set even when every other source is empty or
absent — and, at the set level, aggregation order does not affect the result
(the `Finset` union is order-insensitive). -/
theorem C8_allowed_set_is_union_of_sources
    (table : List (String × PlatformInfo)) (platform : String) (env : FileEnv)
    (extra_allowed : Option (List String)) (allowed : List String)
    (hall : get_allowed_symbols table platform env = .ok allowed) :
    (∀ s, s ∈ withExtraAllowed allowed extra_allowed ↔
      (s ∈ env.headerFunctionNames ∨ s ∈ env.exportedMacroNames ∨
        s ∈ env.platformListSymbols.getD [] ∨ s ∈ extra_allowed.getD [])) ∧
    (withExtraAllowed allowed extra_allowed).toFinset =
      env.headerFunctionNames.toFinset ∪ env.exportedMacroNames.toFinset ∪
        (env.platformListSymbols.getD []).toFinset ∪
        (extra_allowed.getD []).toFinset := by
  have hshape : allowed = env.headerFunctionNames ++ env.exportedMacroNames ++
      env.platformListSymbols.getD [] := by
    cases hlook : table.lookup platform with
    | none =>
        exfalso
        unfold get_allowed_symbols at hall
        rw [hlook] at hall
        exact Except.noConfusion hall
    | some info =>
        rw [get_allowed_symbols_eq_of_lookup table platform env info hlook] at hall
        exact (Except.ok.inj hall).symm
  subst hshape
  cases extra_allowed with
  | none =>
      constructor
      · intro s
        simp [withExtraAllowed, List.mem_append, or_assoc]
      · simp [withExtraAllowed, List.toFinset_append, Finset.union_assoc]
  | some extra =>
      constructor
      · intro s
        simp [withExtraAllowed, List.mem_append, or_assoc]
      · simp [withExtraAllowed, List.toFinset_append, Finset.union_assoc]

theorem C8_allowed_set_is_union_of_sources_witness :
    (get_allowed_symbols (PLATFORM_INFO "" "" "") "tinysys"
        ⟨["h"], ["e"], some ["p"]⟩ = .ok ["h", "e", "p"]) ∧
    ((∀ s, s ∈ withExtraAllowed ["h", "e", "p"] (some ["x"]) ↔
      (s ∈ (FileEnv.mk ["h"] ["e"] (some ["p"])).headerFunctionNames ∨
        s ∈ (FileEnv.mk ["h"] ["e"] (some ["p"])).exportedMacroNames ∨
        s ∈ (FileEnv.mk ["h"] ["e"] (some ["p"])).platformListSymbols.getD [] ∨
        s ∈ (some ["x"]).getD [])) ∧
    (withExtraAllowed ["h", "e", "p"] (some ["x"])).toFinset =
      (FileEnv.mk ["h"] ["e"] (some ["p"])).headerFunctionNames.toFinset ∪
        (FileEnv.mk ["h"] ["e"] (some ["p"])).exportedMacroNames.toFinset ∪
        ((FileEnv.mk ["h"] ["e"] (some ["p"])).platformListSymbols.getD []).toFinset ∪
        ((some ["x"] : Option (List String)).getD []).toFinset) :=
  ⟨by rfl,
    C8_allowed_set_is_union_of_sources (PLATFORM_INFO "" "" "") "tinysys"
      ⟨["h"], ["e"], some ["p"]⟩ (some ["x"]) ["h", "e", "p"] (by rfl)⟩

/-- C9: if the externally supplied platform identifier has no entry in
`PLATFORM_INFO`, computing the allowed symbols raises an uncaught `KeyError`:
the process aborts with non-zero status (the interpreter exits 1 with a
traceback naming the missing key) and no disallowed-symbol result is produced
(the run ends in `Except.error` before `_disallowed_symbols` is reached). -/
theorem C9_unknown_platform_is_fatal
    (tool : ToolResult) (table : List (String × PlatformInfo)) (platform : String)
    (env : FileEnv) (extra_allowed : Option (List String)) (observed : List String)
    (hmiss : table.lookup platform = none)
    (hobs : get_symbols_from_nanoapp tool = .ok observed) :
    get_allowed_symbols table platform env = .error .keyError ∧
    main_block tool table platform env extra_allowed = .error .keyError ∧
    process_exit_status (main_block tool table platform env extra_allowed) = 1 := by
  have h1 : get_allowed_symbols table platform env = .error .keyError := by
    unfold get_allowed_symbols
    rw [hmiss]
  have h2 : main_block tool table platform env extra_allowed = .error .keyError := by
    unfold main_block
    rw [hobs, h1]
    rfl
  exact ⟨h1, h2, by rw [h2]; rfl⟩

theorem C9_unknown_platform_is_fatal_witness :
    ((PLATFORM_INFO "" "" "").lookup "exynos" = none ∧
      get_symbols_from_nanoapp (.ok []) = .ok []) ∧
    (get_allowed_symbols (PLATFORM_INFO "" "" "") "exynos" ⟨[], [], none⟩ =
        .error .keyError ∧
      main_block (.ok []) (PLATFORM_INFO "" "" "") "exynos" ⟨[], [], none⟩ none =
        .error .keyError ∧
      process_exit_status (main_block (.ok []) (PLATFORM_INFO "" "" "") "exynos"
        ⟨[], [], none⟩ none) = 1) :=
  ⟨⟨by decide, by rfl⟩,
    C9_unknown_platform_is_fatal (.ok []) (PLATFORM_INFO "" "" "") "exynos"
      ⟨[], [], none⟩ none [] (by decide) (by rfl)⟩

end CheckNanoappSymbols

